import Mathlib

/-!
Verification of the organizer mail views (`pretalx/orga/views/mails.py`)
against their specification.

The module is embedded shallowly: the relational store is a record of
lists, each Django view handler becomes a pure function from the store
and its request inputs to the updated store plus a trace of observable
effects (messages, redirects, audit-log writes, send calls, deletions).
Out-of-scope collaborators (criteria queries over submissions, the mail
transport) are abstracted exactly where the source calls out of the
module.
-/

set_option autoImplicit false

namespace PretalxMails

/-- An account record: `pretalx.person.models.User` as seen by this
module (identity plus email address). -/
structure User where
  id : Nat
  email : String
  deriving DecidableEq, Repr

/-- A `QueuedMail` row: event-scoped mail with a raw `to` string and/or
a `to_users` relation, content fields, and a nullable `sent` timestamp. -/
structure QueuedMail where
  id : Nat
  event : Nat
  «to» : String
  to_users : List Nat
  reply_to : String
  cc : String
  bcc : String
  subject : String
  text : String
  sent : Option Nat
  deriving DecidableEq, Repr

/-- A `MailTemplate` row (the fields the compose prefill copies). -/
structure MailTemplate where
  id : Nat
  event : Nat
  subject : String
  text : String
  reply_to : String
  bcc : String
  deriving DecidableEq, Repr

/-- The relational store visible to this module: global `User.objects`,
`QueuedMail.objects` and `MailTemplate.objects`, plus the next primary
key handed out on `create`. -/
structure Db where
  users : List User
  mails : List QueuedMail
  templates : List MailTemplate
  nextId : Nat
  deriving DecidableEq, Repr

/-- The current event: its primary key and its configured outgoing
email address (`event.email`). -/
structure Event where
  id : Nat
  email : String
  deriving DecidableEq, Repr

/-- Severity of a flash message (`messages.success` / `messages.error`). -/
inductive MsgLevel where
  | success
  | error
  deriving DecidableEq, Repr

/-- Observable effects a handler emits, in order. -/
inductive Effect where
  | message (level : MsgLevel) (text : String)
  | redirectTo (url : String)
  | logAction (action : String) (objectId : Nat)
  | sendMail (mailId : Nat) (requestor : Option Nat)
  | deleteMail (mailId : Nat)
  | saveMail (mailId : Nat)
  | render (template : String) (objectIds : List Nat)
  deriving DecidableEq, Repr

/-- HTTP request method, as routed by a Django `View.dispatch`. -/
inductive Method where
  | GET
  | POST
  deriving DecidableEq, Repr

/-- `event.orga_urls.outbox`. -/
def outboxUrl : String := "orga/mails/outbox"

/-- `event.orga_urls.mail_templates`. -/
def templatesUrl : String := "orga/mails/templates"

/-- `event.orga_urls.compose_mails`. -/
def composeUrl : String := "orga/mails/compose"

/-- `mail.urls.edit` for a queued mail's primary key. -/
def mailEditUrl (pk : Nat) : String := "orga/mails/" ++ toString pk ++ "/edit"

/-- `QueuedMail.objects.create(...)`: append the row with a fresh
primary key. -/
def createMail (db : Db) (m : QueuedMail) : Db :=
  { db with
    mails := db.mails ++ [{ m with id := db.nextId }]
    nextId := db.nextId + 1 }

/-- Python `s.split(',')` on a character list, accumulating the current
chunk. -/
def pySplitCommaAux : List Char → List Char → List String
  | [], acc => [String.mk acc.reverse]
  | c :: cs, acc =>
    if c = ',' then String.mk acc.reverse :: pySplitCommaAux cs []
    else pySplitCommaAux cs (c :: acc)

/-- Python `s.split(',')`. -/
def pySplitComma (s : String) : List String :=
  pySplitCommaAux s.data []

/-- Python `s.strip()` (whitespace on both ends). -/
def pyStrip (s : String) : String :=
  String.mk (((s.data.dropWhile Char.isWhitespace).reverse.dropWhile
    Char.isWhitespace).reverse)

/-- Python `s.lower()`. -/
def pyLower (s : String) : String :=
  String.mk (s.data.map Char.toLower)

/-- `[m.strip().lower() for m in additional.split(',') if m.strip()]`
from `ComposeMail.form_valid`. -/
def normalizeAdditional (s : String) : List String :=
  ((pySplitComma s).filter (fun m => pyStrip m ≠ "")).map
    (fun m => pyLower (pyStrip m))

/-- `User.objects.filter(email__iexact=email).first()`. -/
def findUserByEmailIexact (users : List User) (email : String) : Option User :=
  users.find? (fun u => pyLower u.email == pyLower email)

/-- Adding one user object to the Python `set` `user_set` (identity is
the primary key, as for Django model instances). -/
def addUser (s : List Nat) (u : Nat) : List Nat :=
  if u ∈ s then s else s ++ [u]

/-- `user_set.update(users)` for a query result. -/
def updateSet (s : List Nat) (us : List Nat) : List Nat :=
  us.foldl addUser s

/-- The out-of-scope criteria queries of `ComposeMail.form_valid`
(each is a `User.objects.filter(submissions__in=...)`-style call into
the external data store, returning user ids). -/
structure QueryEnv where
  usersBySubmissionCodes : List String → List Nat
  usersByTracks : List Nat → List Nat
  usersBySubmissionTypes : List Nat → List Nat
  usersByRecipientCategory : String → List Nat

/-- `WriteMailForm.cleaned_data` as consumed by `form_valid`.  Fields
read with `dict.get` and no guaranteed presence are `Option`s (`none`
means the key is absent, so the `get` default applies). -/
structure WriteMailForm where
  submissions : List String
  tracks : List Nat
  submission_types : List Nat
  recipients : List String
  additional_recipients : Option String
  reply_to : Option String
  cc : String
  bcc : String
  subject : String
  text : String
  deriving DecidableEq, Repr

/-- Steps 1-2 of `ComposeMail.form_valid`: union the criteria query
results into `user_set`, skipping falsy (empty) criteria. -/
def composeCriteriaSet (env : QueryEnv) (form : WriteMailForm) : List Nat :=
  let s : List Nat := []
  let s := if form.submissions ≠ [] then
    updateSet s (env.usersBySubmissionCodes form.submissions) else s
  let s := if form.tracks ≠ [] then
    updateSet s (env.usersByTracks form.tracks) else s
  let s := if form.submission_types ≠ [] then
    updateSet s (env.usersBySubmissionTypes form.submission_types) else s
  form.recipients.foldl (fun s r => updateSet s (env.usersByRecipientCategory r)) s

/-- The standalone `QueuedMail.objects.create(...)` issued for an
additional address that matched no user (`id` is stamped by
`createMail`). -/
def standaloneMail (event : Event) (form : WriteMailForm) (email : String) :
    QueuedMail :=
  { id := 0
    event := event.id
    «to» := email
    to_users := []
    reply_to := form.reply_to.getD event.email
    cc := form.cc
    bcc := form.bcc
    subject := form.subject
    text := form.text
    sent := none }

/-- The per-user `QueuedMail.objects.create(...)` followed by
`mail.to_users.add(user)` (`id` is stamped by `createMail`). -/
def perUserMail (event : Event) (form : WriteMailForm) (user : Nat) :
    QueuedMail :=
  { id := 0
    event := event.id
    «to» := ""
    to_users := [user]
    reply_to := form.reply_to.getD event.email
    cc := form.cc
    bcc := form.bcc
    subject := form.subject
    text := form.text
    sent := none }

/-- One iteration of the `for email in additional_mails` loop: look the
address up among all users; on a match add the user to the set,
otherwise create the standalone mail at once. -/
def composeEmailStep (event : Event) (form : WriteMailForm)
    (acc : List Nat × Db) (email : String) : List Nat × Db :=
  match findUserByEmailIexact acc.2.users email with
  | some u => (addUser acc.1 u.id, acc.2)
  | none => (acc.1, createMail acc.2 (standaloneMail event form email))

/-- `ComposeMail.form_valid`: resolve the recipient set, create the
standalone and per-user `QueuedMail` rows, and return the updated store
together with the count reported in the success message
(`len(user_set) + len(additional_mails)`). -/
def composeFormValid (event : Event) (env : QueryEnv) (db : Db)
    (form : WriteMailForm) : Db × Nat :=
  let user_set := composeCriteriaSet env form
  let additional_mails := normalizeAdditional (form.additional_recipients.getD "")
  let step := additional_mails.foldl (composeEmailStep event form) (user_set, db)
  let db2 := (step.1).foldl (fun d u => createMail d (perUserMail event form u)) step.2
  (db2, step.1.length + additional_mails.length)

/-- Modelled from the spec: `mail.send(...)` is the external
mail-transport call; it "delivers (or re-enqueues for delivery) and
stamps `sent`".  Here it stamps the row's `sent` field with the current
time. -/
def markSent (db : Db) (pk : Nat) (time : Nat) : Db :=
  { db with
    mails := db.mails.map (fun m => if m.id == pk then { m with sent := some time } else m) }

/-- The error message shared by the single-record send and purge
not-found paths. -/
def notFoundMsg : String :=
  "This mail either does not exist or cannot be discarded because it was sent already."

/-- `OutboxSend.dispatch`, single-record path (`pk` in kwargs): look the
mail up in `event.queued_mails`; missing → error; already sent → error;
otherwise `mail.send(requestor=request.user)` and success.  The
dispatch runs before any method routing, so `method` is ignored. -/
def outboxSendSingle (event : Event) (db : Db) (pk : Nat) (user : Nat)
    (time : Nat) (method : Method) : Db × List Effect :=
  let _ := method
  match db.mails.find? (fun m => m.event == event.id && m.id == pk) with
  | none =>
    (db, [.message .error notFoundMsg, .redirectTo outboxUrl])
  | some mail =>
    if mail.sent.isSome then
      (db, [.message .error "This mail had been sent already.", .redirectTo outboxUrl])
    else
      (markSent db mail.id time,
        [.sendMail mail.id (some user), .message .success "The mail has been sent.",
          .redirectTo outboxUrl])

/-- `OutboxPurge.dispatch`, single-record path: the lookup additionally
filters `sent__isnull=True`, so a sent row raises `DoesNotExist`; an
unsent row is audit-logged (`pretalx.mail.delete`) and then deleted.
The inner `if mail.sent` branch of the source is unreachable but kept. -/
def outboxPurgeSingle (event : Event) (db : Db) (pk : Nat) (user : Nat)
    (method : Method) : Db × List Effect :=
  let _ := method
  match db.mails.find? (fun m => m.event == event.id && m.sent == none && m.id == pk) with
  | none =>
    (db, [.message .error notFoundMsg, .redirectTo outboxUrl])
  | some mail =>
    if mail.sent.isSome then
      (db, [.message .error "This mail had been sent already.", .redirectTo outboxUrl])
    else
      ({ db with mails := db.mails.filter (fun m => !(m.id == mail.id)) },
        [.logAction "pretalx.mail.delete" mail.id, .deleteMail mail.id,
          .message .success "The mail has been deleted.", .redirectTo outboxUrl])

/-- `OutboxPurge.post` (bulk confirmation, no `pk`): count the event's
unsent queryset, delete it, report the count. -/
def outboxPurgePost (event : Event) (db : Db) : Db × Nat × List Effect :=
  let qs := db.mails.filter (fun m => m.event == event.id && m.sent == none)
  let count := qs.length
  ({ db with mails := db.mails.filter (fun m => !(m.event == event.id && m.sent == none)) },
    count,
    [.message .success "{count} mails have been purged.", .redirectTo outboxUrl])

/-- `OutboxSend.post` (bulk confirmation, no `pk`): count the event's
unsent queryset, send every member, report the count. -/
def outboxSendPost (event : Event) (db : Db) (user : Nat) (time : Nat) :
    Db × Nat × List Effect :=
  let qs := db.mails.filter (fun m => m.event == event.id && m.sent == none)
  let count := qs.length
  (qs.foldl (fun d m => markSent d m.id time) db,
    count,
    (qs.map (fun m => Effect.sendMail m.id (some user))) ++
      [.message .success "{count} mails have been sent.", .redirectTo outboxUrl])

/-- `MailDetailForm`'s cleaned data plus the bits of the raw POST the
view reads (`form.has_changed()` and `form.data.get('form', 'save')`). -/
structure MailDetailForm where
  to_addr : String
  reply_to : String
  cc : String
  bcc : String
  subject : String
  text : String
  has_changed : Bool
  data_form : Option String
  deriving DecidableEq, Repr

/-- The form's bound `form.instance`: the pre-existing row with the form
fields overwritten (update), or a fresh unsent row (create); in both
cases `form.instance.event = request.event` is assigned by the view. -/
def boundInstance (event : Event) (preexisting : Option QueuedMail)
    (f : MailDetailForm) (freshId : Nat) : QueuedMail :=
  match preexisting with
  | some m =>
    { m with
      event := event.id
      «to» := f.to_addr
      reply_to := f.reply_to
      cc := f.cc
      bcc := f.bcc
      subject := f.subject
      text := f.text }
  | none =>
    { id := freshId
      event := event.id
      «to» := f.to_addr
      to_users := []
      reply_to := f.reply_to
      cc := f.cc
      bcc := f.bcc
      subject := f.subject
      text := f.text
      sent := none }

/-- `MailDetail.form_valid`.  Modelled from the spec where the view
leans on the external `CreateOrUpdateView` (pretalx.common.views, not
part of this module): its `super().form_valid(form)` persists the bound
instance, and the create/update tag of the audit entry reflects
"whether the record pre-existed" (spec 4.4), i.e. whether `get_object`
found a row.  An already-sent instance is refused before saving. -/
def mailDetailFormValid (event : Event) (db : Db)
    (preexisting : Option QueuedMail) (f : MailDetailForm) (time : Nat) :
    Db × List Effect :=
  let inst := boundInstance event preexisting f db.nextId
  if inst.sent.isSome then
    (db, [.message .error "The email has already been sent, you cannot edit it anymore.",
      .redirectTo outboxUrl])
  else
    let db1 := match preexisting with
      | some m =>
        { db with mails := db.mails.map (fun x => if x.id == m.id then inst else x) }
      | none =>
        { db with mails := db.mails ++ [inst], nextId := db.nextId + 1 }
    let effs := [Effect.saveMail inst.id]
    let effs := if f.has_changed then
        effs ++ [Effect.logAction
          ("pretalx.mail." ++ (if preexisting.isSome then "update" else "create")) inst.id]
      else effs
    let action := f.data_form.getD "save"
    if action == "save" then
      (db1, effs ++
        [.message .success
          "The email has been saved. When you send it, the updated text will be used.",
          .redirectTo outboxUrl])
    else if action == "send" then
      (markSent db1 inst.id time,
        effs ++ [Effect.sendMail inst.id none,
          .message .success "The email has been sent.", .redirectTo outboxUrl])
    else
      (db1, effs ++ [.redirectTo outboxUrl])

/-- `MailCopy.dispatch`: `get_object_or_404` on the event's queued
mails (`none` models the hard 404), then `mail.copy_to_draft()`
(modelled from the spec: "returns a new unsent duplicate") and a
redirect to the new draft's edit page.  Runs for every method. -/
def mailCopyDispatch (event : Event) (db : Db) (pk : Nat) (method : Method) :
    Option (Db × List Effect) :=
  let _ := method
  match db.mails.find? (fun m => m.event == event.id && m.id == pk) with
  | none => none
  | some mail =>
    let newMail := { mail with id := db.nextId, sent := none }
    some ({ db with mails := db.mails ++ [newMail], nextId := db.nextId + 1 },
      [.message .success "The mail has been copied, you can edit it now.",
        .redirectTo (mailEditUrl newMail.id)])

/-- `TemplateDelete.dispatch`: `get_object_or_404` scoped to the event
(`none` models the hard 404), an audit entry, then an unconditional
delete and redirect.  The method-routing result of `super().dispatch`
is discarded by the source, so every method reaches the delete. -/
def templateDeleteDispatch (event : Event) (db : Db) (pk : Nat)
    (method : Method) : Option (Db × List Effect) :=
  let _ := method
  match db.templates.find? (fun t => t.event == event.id && t.id == pk) with
  | none => none
  | some t =>
    some ({ db with templates := db.templates.filter (fun x => !(x.id == t.id)) },
      [.logAction "pretalx.mail_template.delete" t.id, .deleteMail t.id,
        .message .success "The template has been deleted.",
        .redirectTo templatesUrl])

/-- The `initial` dict `ComposeMail.get_form_kwargs` builds from the
query parameters. -/
structure ComposeInitial where
  subject : Option String
  text : Option String
  reply_to : Option String
  bcc : Option String
  submissions : Option String
  additional_recipients : Option String
  deriving DecidableEq, Repr

/-- `ComposeMail.get_form_kwargs`: the `template` parameter is resolved
with `MailTemplate.objects.filter(pk=...)` — over all templates, with
no event filter; `submission` is resolved against the event's own
submissions (their codes are `eventSubmissionCodes`); `email` is copied
verbatim. -/
def composeGetFormKwargs (db : Db) (eventSubmissionCodes : List String)
    (templateParam : Option Nat) (submissionParam : Option String)
    (emailParam : Option String) : ComposeInitial :=
  let initial : ComposeInitial :=
    { subject := none, text := none, reply_to := none, bcc := none,
      submissions := none, additional_recipients := none }
  let initial := match templateParam with
    | none => initial
    | some tid =>
      match db.templates.find? (fun t => t.id == tid) with
      | some t =>
        { initial with
          subject := some t.subject
          text := some t.text
          reply_to := some t.reply_to
          bcc := some t.bcc }
      | none => initial
  let initial := match submissionParam with
    | none => initial
    | some code =>
      if code ∈ eventSubmissionCodes then { initial with submissions := some code }
      else initial
  match emailParam with
  | none => initial
  | some e => { initial with additional_recipients := some e }

/-- The audit-log writes of an effect trace. -/
def logEffects (effs : List Effect) : List Effect :=
  effs.filter (fun e => match e with | .logAction _ _ => true | _ => false)

/-- The send calls of an effect trace. -/
def sendEffects (effs : List Effect) : List Effect :=
  effs.filter (fun e => match e with | .sendMail _ _ => true | _ => false)

/-- The deletions of an effect trace. -/
def deleteEffects (effs : List Effect) : List Effect :=
  effs.filter (fun e => match e with | .deleteMail _ => true | _ => false)

/-- The trace contains an error-level message. -/
def hasErrorMessage (effs : List Effect) : Prop :=
  ∃ s, Effect.message .error s ∈ effs

/-- The trace contains a success-level message. -/
def hasSuccessMessage (effs : List Effect) : Prop :=
  ∃ s, Effect.message .success s ∈ effs

/-- Rows as created in sequence: each gets the next primary key. -/
def stampIds : Nat → List QueuedMail → List QueuedMail
  | _, [] => []
  | n, m :: ms => { m with id := n } :: stampIds (n + 1) ms

/-- The pure evolution of `user_set` over one additional address. -/
def emailSetStep (users : List User) (s : List Nat) (email : String) : List Nat :=
  match findUserByEmailIexact users email with
  | some u => addUser s u.id
  | none => s

/-- The final `user_set` of `ComposeMail.form_valid`: the criteria set
extended by the users matched from the additional addresses. -/
def composeFinalSet (env : QueryEnv) (db : Db) (form : WriteMailForm) : List Nat :=
  (normalizeAdditional (form.additional_recipients.getD "")).foldl
    (emailSetStep db.users) (composeCriteriaSet env form)

/-- The normalized additional addresses that match no user account. -/
def unmatchedAdditional (db : Db) (form : WriteMailForm) : List String :=
  (normalizeAdditional (form.additional_recipients.getD "")).filter
    (fun e => (findUserByEmailIexact db.users e).isNone)

/-- The rows `ComposeMail.form_valid` appends to the store. -/
def composeNewMails (event : Event) (env : QueryEnv) (db : Db)
    (form : WriteMailForm) : List QueuedMail :=
  (composeFormValid event env db form).1.mails.drop db.mails.length

/-- Insertion step for `order_by('-id')`. -/
def insertByIdDesc (m : QueuedMail) : List QueuedMail → List QueuedMail
  | [] => [m]
  | x :: xs => if x.id ≤ m.id then m :: x :: xs else x :: insertByIdDesc m xs

/-- `order_by('-id')`: newest primary key first. -/
def orderByIdDesc : List QueuedMail → List QueuedMail
  | [] => []
  | m :: ms => insertByIdDesc m (orderByIdDesc ms)

/-- Insertion step for `order_by('-sent')`. -/
def insertBySentDesc (m : QueuedMail) : List QueuedMail → List QueuedMail
  | [] => [m]
  | x :: xs =>
    if x.sent.getD 0 ≤ m.sent.getD 0 then m :: x :: xs
    else x :: insertBySentDesc m xs

/-- `order_by('-sent')`: most recently sent first. -/
def orderBySentDesc : List QueuedMail → List QueuedMail
  | [] => []
  | m :: ms => insertBySentDesc m (orderBySentDesc ms)

/-- `OutboxList.get_queryset`: the event's unsent mail, newest id first
(the external `Filterable`/`Sortable` mixins are applied afterwards and
are out of scope). -/
def outboxListQueryset (event : Event) (db : Db) : List QueuedMail :=
  orderByIdDesc (db.mails.filter (fun m => m.event == event.id && m.sent == none))

/-- `SentMail.get_queryset`: the event's sent mail, newest `sent`
first. -/
def sentListQueryset (event : Event) (db : Db) : List QueuedMail :=
  orderBySentDesc (db.mails.filter (fun m => m.event == event.id && !(m.sent == none)))

/-- The GET path of `OutboxList`: renders the list template over the
queryset and writes nothing. -/
def outboxListGet (event : Event) (db : Db) : Db × List Effect :=
  (db, [.render "orga/mails/outbox_list.html"
    ((outboxListQueryset event db).map (fun m => m.id))])

/-- The GET path of `SentMail`: renders the list template over the
queryset and writes nothing. -/
def sentListGet (event : Event) (db : Db) : Db × List Effect :=
  (db, [.render "orga/mails/sent_list.html"
    ((sentListQueryset event db).map (fun m => m.id))])

/-- The GET path of `OutboxSend` without a `pk`: `TemplateView` renders
the confirmation page whose question counts the unsent queryset;
nothing is written. -/
def outboxSendConfirmGet (event : Event) (db : Db) : Db × List Effect :=
  (db, [.render "orga/mails/confirm.html"
    ((db.mails.filter (fun m => m.event == event.id && m.sent == none)).map
      (fun m => m.id))])

/-- The GET path of `OutboxPurge` without a `pk`: same confirmation
rendering over its own unsent queryset; nothing is written. -/
def outboxPurgeConfirmGet (event : Event) (db : Db) : Db × List Effect :=
  (db, [.render "orga/mails/confirm.html"
    ((db.mails.filter (fun m => m.event == event.id && m.sent == none)).map
      (fun m => m.id))])

/-- The GET path of `MailDetail`: renders the form bound to
`get_object` (the event's mail with this pk, or a fresh draft when
absent); nothing is written. -/
def mailDetailGet (event : Event) (db : Db) (pk : Nat) : Db × List Effect :=
  (db, [.render "orga/mails/outbox_form.html"
    ((db.mails.filter (fun m => m.event == event.id && m.id == pk)).map
      (fun m => m.id))])

/-- The GET path of `TemplateList`: renders the event's templates
(fixed slots and the "other" list are partitioned by the external form
machinery); nothing is written. -/
def templateListGet (event : Event) (db : Db) : Db × List Effect :=
  (db, [.render "orga/mails/template_list.html"
    ((db.templates.filter (fun t => t.event == event.id)).map (fun t => t.id))])

/-- The GET path of `ComposeMail`: `FormView` renders the compose form
whose initial values come from `composeGetFormKwargs`; nothing is
written. -/
def composeGet (event : Event) (db : Db) (codes : List String)
    (templateParam : Option Nat) (submissionParam emailParam : Option String) :
    Db × List Effect :=
  let _ := composeGetFormKwargs db codes templateParam submissionParam emailParam
  (db, [.render "orga/mails/send_form.html" []])

/-- The response half of `ComposeMail.form_valid`: after the rows are
created, the success message (lines 318-323) and the redirect of
`super().form_valid` to `get_success_url` (the compose page). -/
def composeFormValidResponse (event : Event) (env : QueryEnv) (db : Db)
    (form : WriteMailForm) : Db × List Effect :=
  ((composeFormValid event env db form).1,
    [.message .success
      "{count} emails have been saved to the outbox – you can make individual changes there or just send them all.",
      .redirectTo composeUrl])

/-- The store-writing effects of a trace (audit writes, send calls,
deletions, saves). -/
def mutatingEffects (effs : List Effect) : List Effect :=
  effs.filter (fun e => match e with
    | .logAction _ _ => true
    | .sendMail _ _ => true
    | .deleteMail _ => true
    | .saveMail _ => true
    | _ => false)

/-! ### Decomposition lemmas for the compose flow -/

theorem stampIds_nil (n : Nat) : stampIds n [] = [] := rfl

theorem stampIds_cons (n : Nat) (m : QueuedMail) (ms : List QueuedMail) :
    stampIds n (m :: ms) = { m with id := n } :: stampIds (n + 1) ms := rfl

theorem foldl_createMail_spec (ms : List QueuedMail) (db : Db) :
    (ms.foldl createMail db).users = db.users ∧
    (ms.foldl createMail db).mails = db.mails ++ stampIds db.nextId ms ∧
    (ms.foldl createMail db).nextId = db.nextId + ms.length := by
  induction ms generalizing db with
  | nil => simp [stampIds]
  | cons m ms ih =>
    have h := ih (createMail db m)
    simp only [List.foldl_cons]
    refine ⟨h.1, ?_, ?_⟩
    · rw [h.2.1]
      simp [createMail, stampIds_cons]
    · rw [h.2.2]
      simp [createMail]
      omega

theorem foldl_createMail_of_fun {α : Type} (g : α → QueuedMail) (us : List α) (db : Db) :
    us.foldl (fun d u => createMail d (g u)) db = (us.map g).foldl createMail db := by
  induction us generalizing db with
  | nil => rfl
  | cons u us ih => simp only [List.foldl_cons, List.map_cons]; exact ih _

theorem composeEmailStep_fold (event : Event) (form : WriteMailForm)
    (A : List String) (s : List Nat) (db : Db) :
    (A.foldl (composeEmailStep event form) (s, db)).1
        = A.foldl (emailSetStep db.users) s ∧
    (A.foldl (composeEmailStep event form) (s, db)).2.users = db.users ∧
    (A.foldl (composeEmailStep event form) (s, db)).2.mails
        = db.mails ++ stampIds db.nextId
            ((A.filter (fun e => (findUserByEmailIexact db.users e).isNone)).map
              (standaloneMail event form)) ∧
    (A.foldl (composeEmailStep event form) (s, db)).2.nextId
        = db.nextId +
            (A.filter (fun e => (findUserByEmailIexact db.users e).isNone)).length := by
  induction A generalizing s db with
  | nil => simp [stampIds]
  | cons a A ih =>
    simp only [List.foldl_cons]
    cases hfind : findUserByEmailIexact db.users a with
    | some u =>
      have hstep : composeEmailStep event form (s, db) a = (addUser s u.id, db) := by
        simp [composeEmailStep, hfind]
      rw [hstep]
      have h := ih (addUser s u.id) db
      refine ⟨?_, h.2.1, ?_, ?_⟩
      · rw [h.1]; simp [emailSetStep, hfind]
      · rw [h.2.2.1]
        simp [List.filter_cons, hfind]
      · rw [h.2.2.2]
        simp [List.filter_cons, hfind]
    | none =>
      have hstep : composeEmailStep event form (s, db) a
          = (s, createMail db (standaloneMail event form a)) := by
        simp [composeEmailStep, hfind]
      rw [hstep]
      have h := ih s (createMail db (standaloneMail event form a))
      have husers : (createMail db (standaloneMail event form a)).users = db.users := rfl
      refine ⟨?_, ?_, ?_, ?_⟩
      · rw [h.1, husers]; simp [emailSetStep, hfind]
      · rw [h.2.1, husers]
      · rw [h.2.2.1]
        simp only [createMail, husers]
        simp [stampIds_cons, List.filter_cons, hfind, List.append_assoc]
      · rw [h.2.2.2]
        simp only [createMail, List.filter_cons, hfind, Option.isNone_none]
        simp
        omega

theorem perUserFold_mails (event : Event) (form : WriteMailForm) (us : List Nat)
    (db2 : Db) :
    (us.foldl (fun d u => createMail d (perUserMail event form u)) db2).mails
      = db2.mails ++ stampIds db2.nextId (us.map (perUserMail event form)) := by
  rw [foldl_createMail_of_fun]
  exact (foldl_createMail_spec _ _).2.1

/-- `ComposeMail.form_valid` creates exactly the standalone rows for the
unmatched additional addresses followed by one per-user row for each
member of the final user set, appended with consecutive fresh ids. -/
theorem composeFormValid_mails (event : Event) (env : QueryEnv) (db : Db)
    (form : WriteMailForm) :
    (composeFormValid event env db form).1.mails
      = db.mails
        ++ stampIds db.nextId
            ((unmatchedAdditional db form).map (standaloneMail event form))
        ++ stampIds (db.nextId + (unmatchedAdditional db form).length)
            ((composeFinalSet env db form).map (perUserMail event form)) := by
  have h := composeEmailStep_fold event form
    (normalizeAdditional (form.additional_recipients.getD ""))
    (composeCriteriaSet env form) db
  simp only [composeFormValid]
  rw [perUserFold_mails, h.1, h.2.2.1, h.2.2.2]
  simp [unmatchedAdditional, composeFinalSet, List.append_assoc]

/-- The reported count is the final user-set size plus the number of all
normalized additional addresses (matched ones included). -/
theorem composeFormValid_count (event : Event) (env : QueryEnv) (db : Db)
    (form : WriteMailForm) :
    (composeFormValid event env db form).2
      = (composeFinalSet env db form).length
        + (normalizeAdditional (form.additional_recipients.getD "")).length := by
  simp only [composeFormValid]
  have h := composeEmailStep_fold event form
    (normalizeAdditional (form.additional_recipients.getD ""))
    (composeCriteriaSet env form) db
  simp only [h.1]
  rfl

theorem mem_addUser_self (s : List Nat) (u : Nat) : u ∈ addUser s u := by
  unfold addUser
  split
  · assumption
  · simp

theorem mem_addUser_of_mem {s : List Nat} {x : Nat} (u : Nat) (h : x ∈ s) :
    x ∈ addUser s u := by
  unfold addUser
  split
  · exact h
  · simp [h]

theorem addUser_nodup {s : List Nat} (u : Nat) (h : s.Nodup) :
    (addUser s u).Nodup := by
  unfold addUser
  split
  · exact h
  · next hu => simp [List.nodup_append, h, hu]

theorem updateSet_nodup {s : List Nat} (us : List Nat) (h : s.Nodup) :
    (updateSet s us).Nodup := by
  unfold updateSet
  induction us generalizing s with
  | nil => exact h
  | cons u us ih => exact ih (addUser_nodup u h)

theorem composeCriteriaSet_nodup (env : QueryEnv) (form : WriteMailForm) :
    (composeCriteriaSet env form).Nodup := by
  unfold composeCriteriaSet
  have base : ∀ (s : List Nat), s.Nodup → ∀ (rs : List String),
      (rs.foldl (fun s r => updateSet s (env.usersByRecipientCategory r)) s).Nodup := by
    intro s hs rs
    induction rs generalizing s with
    | nil => exact hs
    | cons r rs ih => exact ih _ (updateSet_nodup _ hs)
  apply base
  repeat' split
  all_goals
    first
    | exact List.nodup_nil
    | exact updateSet_nodup _ List.nodup_nil
    | exact updateSet_nodup _ (updateSet_nodup _ List.nodup_nil)
    | exact updateSet_nodup _ (updateSet_nodup _ (updateSet_nodup _ List.nodup_nil))

theorem emailFold_nodup (users : List User) (A : List String) {s : List Nat}
    (h : s.Nodup) : (A.foldl (emailSetStep users) s).Nodup := by
  induction A generalizing s with
  | nil => exact h
  | cons a A ih =>
    simp only [List.foldl_cons]
    apply ih
    unfold emailSetStep
    cases findUserByEmailIexact users a with
    | some u => exact addUser_nodup _ h
    | none => exact h

theorem mem_emailFold_of_mem (users : List User) (A : List String)
    {s : List Nat} {x : Nat} (h : x ∈ s) : x ∈ A.foldl (emailSetStep users) s := by
  induction A generalizing s with
  | nil => exact h
  | cons a A ih =>
    simp only [List.foldl_cons]
    apply ih
    unfold emailSetStep
    cases findUserByEmailIexact users a with
    | some u => exact mem_addUser_of_mem _ h
    | none => exact h

theorem mem_emailFold_matched (users : List User) {A : List String}
    {e : String} {u : User} (s : List Nat) (he : e ∈ A)
    (hf : findUserByEmailIexact users e = some u) :
    u.id ∈ A.foldl (emailSetStep users) s := by
  induction A generalizing s with
  | nil => cases he
  | cons a A ih =>
    simp only [List.foldl_cons]
    rcases List.mem_cons.mp he with rfl | hmem
    · apply mem_emailFold_of_mem
      unfold emailSetStep
      rw [hf]
      exact mem_addUser_self _ _
    · exact ih _ hmem

theorem composeFinalSet_nodup (env : QueryEnv) (db : Db) (form : WriteMailForm) :
    (composeFinalSet env db form).Nodup :=
  emailFold_nodup _ _ (composeCriteriaSet_nodup env form)

theorem stampIds_filter_map {α : Type} (p : QueuedMail → Bool) (f : QueuedMail → α)
    (hp : ∀ (m : QueuedMail) (n : Nat), p { m with id := n } = p m)
    (hf : ∀ (m : QueuedMail) (n : Nat), f { m with id := n } = f m)
    (n : Nat) (ms : List QueuedMail) :
    ((stampIds n ms).filter p).map f = (ms.filter p).map f := by
  induction ms generalizing n with
  | nil => rfl
  | cons m ms ih =>
    simp only [stampIds_cons, List.filter_cons, hp m n]
    cases hpm : p m
    · simpa using ih (n + 1)
    · simp [hf m n, ih (n + 1)]

theorem mem_stampIds {m : QueuedMail} (n : Nat) (ms : List QueuedMail)
    (h : m ∈ stampIds n ms) : ∃ m0 ∈ ms, ∃ k, m = { m0 with id := k } := by
  induction ms generalizing n with
  | nil => cases h
  | cons m1 ms ih =>
    rw [stampIds_cons, List.mem_cons] at h
    rcases h with rfl | h
    · exact ⟨m1, List.mem_cons_self _ _, n, rfl⟩
    · obtain ⟨m0, hm0, k, hk⟩ := ih (n + 1) h
      exact ⟨m0, List.mem_cons_of_mem _ hm0, k, hk⟩

theorem composeNewMails_eq (event : Event) (env : QueryEnv) (db : Db)
    (form : WriteMailForm) :
    composeNewMails event env db form
      = stampIds db.nextId
          ((unmatchedAdditional db form).map (standaloneMail event form))
        ++ stampIds (db.nextId + (unmatchedAdditional db form).length)
            ((composeFinalSet env db form).map (perUserMail event form)) := by
  unfold composeNewMails
  rw [composeFormValid_mails, List.append_assoc, List.drop_left]

/-! ### Claim theorems -/

/-- C2: every normalized additional address that matches an existing
user case-insensitively is merged into the deduplicated user set and
gets no standalone record; every address matching no user gets exactly
one standalone `QueuedMail`; and exactly one `QueuedMail` is created
per user of the final set, with that user as its single recipient
relation, so no user is mailed twice. -/
theorem compose_recipient_resolution (event : Event) (env : QueryEnv) (db : Db)
    (form : WriteMailForm) :
    (composeFinalSet env db form).Nodup
    ∧ (∀ e ∈ normalizeAdditional (form.additional_recipients.getD ""),
        ∀ u, findUserByEmailIexact db.users e = some u →
          u.id ∈ composeFinalSet env db form)
    ∧ (((composeNewMails event env db form).filter
          (fun m => m.to_users.isEmpty)).map (fun m => m.to)
        = unmatchedAdditional db form)
    ∧ (∀ e ∈ normalizeAdditional (form.additional_recipients.getD ""),
        ∀ u, findUserByEmailIexact db.users e = some u →
          e ∉ ((composeNewMails event env db form).filter
            (fun m => m.to_users.isEmpty)).map (fun m => m.to))
    ∧ (((composeNewMails event env db form).filter
          (fun m => !m.to_users.isEmpty)).map QueuedMail.to_users
        = (composeFinalSet env db form).map (fun u => [u])) := by
  have hstandalone : ((unmatchedAdditional db form).map
      (standaloneMail event form)).filter (fun m => m.to_users.isEmpty)
      = (unmatchedAdditional db form).map (standaloneMail event form) := by
    apply List.filter_eq_self.mpr
    intro m hm
    obtain ⟨e, _, rfl⟩ := List.mem_map.mp hm
    rfl
  have hperuser : ((composeFinalSet env db form).map
      (perUserMail event form)).filter (fun m => m.to_users.isEmpty) = [] := by
    apply List.filter_eq_nil_iff.mpr
    intro m hm
    obtain ⟨u, _, rfl⟩ := List.mem_map.mp hm
    simp [perUserMail]
  have hstandalone2 : ((unmatchedAdditional db form).map
      (standaloneMail event form)).filter (fun m => !m.to_users.isEmpty) = [] := by
    apply List.filter_eq_nil_iff.mpr
    intro m hm
    obtain ⟨e, _, rfl⟩ := List.mem_map.mp hm
    simp [standaloneMail]
  have hperuser2 : ((composeFinalSet env db form).map
      (perUserMail event form)).filter (fun m => !m.to_users.isEmpty)
      = (composeFinalSet env db form).map (perUserMail event form) := by
    apply List.filter_eq_self.mpr
    intro m hm
    obtain ⟨u, _, rfl⟩ := List.mem_map.mp hm
    rfl
  have hc3 : ((composeNewMails event env db form).filter
      (fun m => m.to_users.isEmpty)).map (fun m => m.to)
      = unmatchedAdditional db form := by
    rw [composeNewMails_eq, List.filter_append, List.map_append,
      stampIds_filter_map (fun m => m.to_users.isEmpty) (fun m => m.to)
        (fun m n => rfl) (fun m n => rfl),
      stampIds_filter_map (fun m => m.to_users.isEmpty) (fun m => m.to)
        (fun m n => rfl) (fun m n => rfl),
      hstandalone, hperuser]
    simp only [List.map_map, List.map_nil, List.append_nil]
    rw [show ((fun (m : QueuedMail) => m.to) ∘ standaloneMail event form)
        = fun e => e from funext (fun e => rfl)]
    simp
  refine ⟨composeFinalSet_nodup env db form, ?_, hc3, ?_, ?_⟩
  · intro e he u hf
    exact mem_emailFold_matched db.users _ he hf
  · intro e he u hf hin
    rw [hc3] at hin
    rw [unmatchedAdditional, List.mem_filter] at hin
    rw [hf] at hin
    simp at hin
  · rw [composeNewMails_eq, List.filter_append, List.map_append,
      stampIds_filter_map (fun m => !m.to_users.isEmpty) QueuedMail.to_users
        (fun m n => rfl) (fun m n => rfl),
      stampIds_filter_map (fun m => !m.to_users.isEmpty) QueuedMail.to_users
        (fun m n => rfl) (fun m n => rfl),
      hstandalone2, hperuser2]
    simp only [List.map_map, List.map_nil, List.nil_append]
    rw [show (QueuedMail.to_users ∘ perUserMail event form)
        = fun u => [u] from funext (fun u => rfl)]

/-- Witness for C2 at a concrete compose submission: `a@x.com` matches
user 1 and is merged into the set, `b@y.com` matches nobody and yields
the single standalone record. -/
theorem compose_recipient_resolution_witness :
    (1 : Nat) ∈ composeFinalSet
      { usersBySubmissionCodes := fun _ => [], usersByTracks := fun _ => [],
        usersBySubmissionTypes := fun _ => [], usersByRecipientCategory := fun _ => [] }
      { users := [{ id := 1, email := "a@x.com" }], mails := [], templates := [],
        nextId := 0 }
      { submissions := [], tracks := [], submission_types := [], recipients := [],
        additional_recipients := some "a@x.com, b@y.com", reply_to := none,
        cc := "", bcc := "", subject := "s", text := "t" } :=
  (compose_recipient_resolution
    { id := 1, email := "orga@example.com" }
    { usersBySubmissionCodes := fun _ => [], usersByTracks := fun _ => [],
      usersBySubmissionTypes := fun _ => [], usersByRecipientCategory := fun _ => [] }
    { users := [{ id := 1, email := "a@x.com" }], mails := [], templates := [],
      nextId := 0 }
    { submissions := [], tracks := [], submission_types := [], recipients := [],
      additional_recipients := some "a@x.com, b@y.com", reply_to := none,
      cc := "", bcc := "", subject := "s", text := "t" }).2.1
    "a@x.com" (by decide) { id := 1, email := "a@x.com" } (by decide)

/-- C5: when the compose form supplies no reply_to, every created row
(standalone and per-user) defaults its reply_to to the event's
configured outgoing address. -/
theorem compose_reply_to_default (event : Event) (env : QueryEnv) (db : Db)
    (form : WriteMailForm) (h : form.reply_to = none) :
    ∀ m ∈ composeNewMails event env db form, m.reply_to = event.email := by
  intro m hm
  rw [composeNewMails_eq] at hm
  rcases List.mem_append.mp hm with h1 | h2
  · obtain ⟨m0, hm0, k, rfl⟩ := mem_stampIds _ _ h1
    obtain ⟨e, _, rfl⟩ := List.mem_map.mp hm0
    simp [standaloneMail, h]
  · obtain ⟨m0, hm0, k, rfl⟩ := mem_stampIds _ _ h2
    obtain ⟨u, _, rfl⟩ := List.mem_map.mp hm0
    simp [perUserMail, h]

/-- Witness for C5: at a concrete submission with no reply_to, the
created mails carry the event's address. -/
theorem compose_reply_to_default_witness :
    (WriteMailForm.reply_to
        { submissions := [], tracks := [], submission_types := [], recipients := [],
          additional_recipients := some "a@x.com, b@y.com", reply_to := none,
          cc := "", bcc := "", subject := "s", text := "t" } = none)
    ∧ ∀ m ∈ composeNewMails
        { id := 1, email := "orga@example.com" }
        { usersBySubmissionCodes := fun _ => [], usersByTracks := fun _ => [],
          usersBySubmissionTypes := fun _ => [], usersByRecipientCategory := fun _ => [] }
        { users := [{ id := 1, email := "a@x.com" }], mails := [], templates := [],
          nextId := 0 }
        { submissions := [], tracks := [], submission_types := [], recipients := [],
          additional_recipients := some "a@x.com, b@y.com", reply_to := none,
          cc := "", bcc := "", subject := "s", text := "t" },
        m.reply_to = "orga@example.com" :=
  ⟨rfl, compose_reply_to_default
    { id := 1, email := "orga@example.com" }
    { usersBySubmissionCodes := fun _ => [], usersByTracks := fun _ => [],
      usersBySubmissionTypes := fun _ => [], usersByRecipientCategory := fun _ => [] }
    { users := [{ id := 1, email := "a@x.com" }], mails := [], templates := [],
      nextId := 0 }
    { submissions := [], tracks := [], submission_types := [], recipients := [],
      additional_recipients := some "a@x.com, b@y.com", reply_to := none,
      cc := "", bcc := "", subject := "s", text := "t" }
    rfl⟩

/-- C1 shows a code bug: on the spec's own example
(`additional_recipients = "a@x.com, A@X.com, b@y.com"` where `a@x.com`
belongs to an existing user and no other filters are set) the view
creates 2 mails but reports `len(user_set) + len(additional_mails) = 4`
in its "{count} emails have been saved to the outbox" message, because
every normalized address is counted even when it was merged into the
user set or was a duplicate. -/
theorem compose_count_overreports :
    (composeFormValid
        { id := 1, email := "orga@example.com" }
        { usersBySubmissionCodes := fun _ => [], usersByTracks := fun _ => [],
          usersBySubmissionTypes := fun _ => [], usersByRecipientCategory := fun _ => [] }
        { users := [{ id := 1, email := "a@x.com" }], mails := [], templates := [],
          nextId := 0 }
        { submissions := [], tracks := [], submission_types := [], recipients := [],
          additional_recipients := some "a@x.com, A@X.com, b@y.com", reply_to := none,
          cc := "", bcc := "", subject := "s", text := "t" }).2 = 4
    ∧ (composeFormValid
        { id := 1, email := "orga@example.com" }
        { usersBySubmissionCodes := fun _ => [], usersByTracks := fun _ => [],
          usersBySubmissionTypes := fun _ => [], usersByRecipientCategory := fun _ => [] }
        { users := [{ id := 1, email := "a@x.com" }], mails := [], templates := [],
          nextId := 0 }
        { submissions := [], tracks := [], submission_types := [], recipients := [],
          additional_recipients := some "a@x.com, A@X.com, b@y.com", reply_to := none,
          cc := "", bcc := "", subject := "s", text := "t" }).1.mails.length = 2 := by
  constructor
  · decide
  · decide

theorem find?_eq_some_of_unique {α : Type} (l : List α) (p : α → Bool) (x : α)
    (hx : x ∈ l) (hpx : p x = true) (huniq : ∀ y ∈ l, p y = true → y = x) :
    l.find? p = some x := by
  induction l with
  | nil => cases hx
  | cons a l ih =>
    cases hpa : p a with
    | true =>
      rw [List.find?_cons_of_pos _ hpa]
      rw [huniq a (List.mem_cons_self _ _) hpa]
    | false =>
      rw [List.find?_cons_of_neg _ (by simp [hpa])]
      rcases List.mem_cons.mp hx with rfl | hmem
      · rw [hpx] at hpa; cases hpa
      · exact ih hmem (fun y hy hpy => huniq y (List.mem_cons_of_mem _ hy) hpy)

theorem send_find_some (event : Event) (db : Db) (mail : QueuedMail)
    (hmem : mail ∈ db.mails) (hev : mail.event = event.id)
    (huniq : ∀ m' ∈ db.mails, m'.id = mail.id → m' = mail) :
    db.mails.find? (fun m => m.event == event.id && m.id == mail.id) = some mail := by
  apply find?_eq_some_of_unique _ _ _ hmem
  · simp [hev]
  · intro y hy hpy
    simp only [Bool.and_eq_true, beq_iff_eq] at hpy
    exact huniq y hy hpy.2

/-- C3: once a `QueuedMail` is sent, editing it, sending it again and
purging it all leave the store unchanged, emit an error message, and
perform no save/log/send/delete. -/
theorem sent_mail_immutable (event : Event) (db : Db) (mail : QueuedMail)
    (t actor time : Nat) (method : Method) (f : MailDetailForm)
    (hmem : mail ∈ db.mails) (hev : mail.event = event.id)
    (hsent : mail.sent = some t)
    (huniq : ∀ m' ∈ db.mails, m'.id = mail.id → m' = mail) :
    ((mailDetailFormValid event db (some mail) f time).1 = db
      ∧ hasErrorMessage (mailDetailFormValid event db (some mail) f time).2
      ∧ logEffects (mailDetailFormValid event db (some mail) f time).2 = []
      ∧ sendEffects (mailDetailFormValid event db (some mail) f time).2 = [])
    ∧ ((outboxSendSingle event db mail.id actor time method).1 = db
      ∧ hasErrorMessage (outboxSendSingle event db mail.id actor time method).2
      ∧ sendEffects (outboxSendSingle event db mail.id actor time method).2 = [])
    ∧ ((outboxPurgeSingle event db mail.id actor method).1 = db
      ∧ hasErrorMessage (outboxPurgeSingle event db mail.id actor method).2
      ∧ deleteEffects (outboxPurgeSingle event db mail.id actor method).2 = []) := by
  have hdetail : mailDetailFormValid event db (some mail) f time
      = (db, [.message .error
          "The email has already been sent, you cannot edit it anymore.",
          .redirectTo outboxUrl]) := by
    unfold mailDetailFormValid
    simp [boundInstance, hsent]
  have hfind := send_find_some event db mail hmem hev huniq
  have hsend : outboxSendSingle event db mail.id actor time method
      = (db, [.message .error "This mail had been sent already.",
          .redirectTo outboxUrl]) := by
    unfold outboxSendSingle
    rw [hfind]
    simp [hsent]
  have hfind2 : db.mails.find?
      (fun m => m.event == event.id && m.sent == none && m.id == mail.id) = none := by
    rw [List.find?_eq_none]
    intro m' hm' hp
    simp only [Bool.and_eq_true, beq_iff_eq] at hp
    obtain ⟨⟨h1, h2⟩, h3⟩ := hp
    rw [huniq m' hm' h3] at h2
    rw [hsent] at h2
    cases h2
  have hpurge : outboxPurgeSingle event db mail.id actor method
      = (db, [.message .error notFoundMsg, .redirectTo outboxUrl]) := by
    unfold outboxPurgeSingle
    rw [hfind2]
  refine ⟨⟨?_, ?_, ?_, ?_⟩, ⟨?_, ?_, ?_⟩, ⟨?_, ?_, ?_⟩⟩
  · rw [hdetail]
  · rw [hdetail]
    exact ⟨_, List.mem_cons_self _ _⟩
  · rw [hdetail]; rfl
  · rw [hdetail]; rfl
  · rw [hsend]
  · rw [hsend]
    exact ⟨_, List.mem_cons_self _ _⟩
  · rw [hsend]; rfl
  · rw [hpurge]
  · rw [hpurge]
    exact ⟨_, List.mem_cons_self _ _⟩
  · rw [hpurge]; rfl

/-- Witness for C3 at a concrete already-sent mail: the store is
untouched by all three operations. -/
theorem sent_mail_immutable_witness :
    let M : QueuedMail :=
      { id := 3, event := 1, «to» := "a@x.com", to_users := [], reply_to := "r",
        cc := "", bcc := "", subject := "s", text := "t", sent := some 5 }
    let DB : Db := { users := [], mails := [M], templates := [], nextId := 4 }
    let F : MailDetailForm :=
      { to_addr := "b@y.com", reply_to := "r2", cc := "", bcc := "", subject := "s2",
        text := "t2", has_changed := true, data_form := some "save" }
    (mailDetailFormValid { id := 1, email := "e@x" } DB (some M) F 9).1 = DB
    ∧ (outboxSendSingle { id := 1, email := "e@x" } DB 3 7 9 Method.GET).1 = DB
    ∧ (outboxPurgeSingle { id := 1, email := "e@x" } DB 3 7 Method.GET).1 = DB := by
  intro M DB F
  have h := sent_mail_immutable { id := 1, email := "e@x" } DB M 5 7 9 Method.GET F
    (by decide) (by decide) (by decide) (by decide)
  exact ⟨h.1.1, h.2.1.1, h.2.2.1⟩

/-- C7: the single-record send path: a missing record or an
already-sent one yields an error and no state change; an existing
unsent one triggers exactly one send call carrying the acting user as
requestor, and success is reported. -/
theorem outbox_send_single_cases (event : Event) (db : Db) (pk actor time : Nat)
    (method : Method) :
    ((∀ m ∈ db.mails, ¬(m.event = event.id ∧ m.id = pk)) →
      (outboxSendSingle event db pk actor time method).1 = db
      ∧ hasErrorMessage (outboxSendSingle event db pk actor time method).2
      ∧ sendEffects (outboxSendSingle event db pk actor time method).2 = [])
    ∧ (∀ m ∈ db.mails, m.event = event.id → m.id = pk →
        (∀ m' ∈ db.mails, m'.id = pk → m' = m) → m.sent ≠ none →
        (outboxSendSingle event db pk actor time method).1 = db
        ∧ hasErrorMessage (outboxSendSingle event db pk actor time method).2
        ∧ sendEffects (outboxSendSingle event db pk actor time method).2 = [])
    ∧ (∀ m ∈ db.mails, m.event = event.id → m.id = pk →
        (∀ m' ∈ db.mails, m'.id = pk → m' = m) → m.sent = none →
        sendEffects (outboxSendSingle event db pk actor time method).2
          = [Effect.sendMail pk (some actor)]
        ∧ hasSuccessMessage (outboxSendSingle event db pk actor time method).2
        ∧ (outboxSendSingle event db pk actor time method).1 = markSent db pk time) := by
  refine ⟨?_, ?_, ?_⟩
  · intro hnone
    have hfind : db.mails.find? (fun m => m.event == event.id && m.id == pk) = none := by
      rw [List.find?_eq_none]
      intro m hm hp
      simp only [Bool.and_eq_true, beq_iff_eq] at hp
      exact hnone m hm hp
    have heq : outboxSendSingle event db pk actor time method
        = (db, [.message .error notFoundMsg, .redirectTo outboxUrl]) := by
      unfold outboxSendSingle
      rw [hfind]
    rw [heq]
    exact ⟨rfl, ⟨_, List.mem_cons_self _ _⟩, rfl⟩
  · intro m hm hev hid huniq hsent
    subst hid
    have hfind : db.mails.find? (fun x => x.event == event.id && x.id == m.id)
        = some m :=
      send_find_some event db m hm hev huniq
    obtain ⟨t, ht⟩ := Option.ne_none_iff_exists'.mp hsent
    have heq : outboxSendSingle event db m.id actor time method
        = (db, [.message .error "This mail had been sent already.",
            .redirectTo outboxUrl]) := by
      unfold outboxSendSingle
      rw [hfind]
      simp [ht]
    rw [heq]
    exact ⟨rfl, ⟨_, List.mem_cons_self _ _⟩, rfl⟩
  · intro m hm hev hid huniq hsent
    subst hid
    have hfind : db.mails.find? (fun x => x.event == event.id && x.id == m.id)
        = some m :=
      send_find_some event db m hm hev huniq
    have heq : outboxSendSingle event db m.id actor time method
        = (markSent db m.id time,
            [.sendMail m.id (some actor), .message .success "The mail has been sent.",
              .redirectTo outboxUrl]) := by
      unfold outboxSendSingle
      rw [hfind]
      simp [hsent]
    rw [heq]
    exact ⟨rfl, ⟨_, List.mem_cons_of_mem _ (List.mem_cons_self _ _)⟩, rfl⟩

/-- Witness for C7: sending an existing unsent mail records exactly one
send call for the acting user, and sending a missing id changes
nothing. -/
theorem outbox_send_single_cases_witness :
    let M : QueuedMail :=
      { id := 3, event := 1, «to» := "a@x.com", to_users := [], reply_to := "r",
        cc := "", bcc := "", subject := "s", text := "t", sent := none }
    let DB : Db := { users := [], mails := [M], templates := [], nextId := 4 }
    sendEffects (outboxSendSingle { id := 1, email := "e@x" } DB 3 7 9 Method.POST).2
      = [Effect.sendMail 3 (some 7)]
    ∧ (outboxSendSingle { id := 1, email := "e@x" } DB 99 7 9 Method.POST).1 = DB := by
  intro M DB
  have h := outbox_send_single_cases { id := 1, email := "e@x" } DB 3 7 9 Method.POST
  have h99 := outbox_send_single_cases { id := 1, email := "e@x" } DB 99 7 9 Method.POST
  exact ⟨(h.2.2 M (by decide) (by decide) (by decide) (by decide) (by decide)).1,
    (h99.1 (by decide)).1⟩

/-- C8: the single-record purge path: an existing unsent mail is
audit-logged first and deleted second, with a success message; a sent
mail yields an error, deletes nothing, and never falls through to the
bulk purge. -/
theorem outbox_purge_single_cases (event : Event) (db : Db) (pk actor : Nat)
    (method : Method) :
    (∀ m ∈ db.mails, m.event = event.id → m.id = pk →
        (∀ m' ∈ db.mails, m'.id = pk → m' = m) → m.sent = none →
        (outboxPurgeSingle event db pk actor method).2
          = [Effect.logAction "pretalx.mail.delete" pk, Effect.deleteMail pk,
              Effect.message .success "The mail has been deleted.",
              Effect.redirectTo outboxUrl]
        ∧ (outboxPurgeSingle event db pk actor method).1.mails
            = db.mails.filter (fun x => !(x.id == pk)))
    ∧ (∀ m ∈ db.mails, m.event = event.id → m.id = pk →
        (∀ m' ∈ db.mails, m'.id = pk → m' = m) → m.sent ≠ none →
        (outboxPurgeSingle event db pk actor method).1 = db
        ∧ hasErrorMessage (outboxPurgeSingle event db pk actor method).2
        ∧ deleteEffects (outboxPurgeSingle event db pk actor method).2 = []) := by
  constructor
  · intro m hm hev hid huniq hsent
    subst hid
    have hfind : db.mails.find?
        (fun x => x.event == event.id && x.sent == none && x.id == m.id)
        = some m := by
      apply find?_eq_some_of_unique _ _ _ hm
      · simp [hev, hsent]
      · intro y hy hpy
        simp only [Bool.and_eq_true, beq_iff_eq] at hpy
        exact huniq y hy hpy.2
    have heq : outboxPurgeSingle event db m.id actor method
        = ({ db with mails := db.mails.filter (fun x => !(x.id == m.id)) },
            [.logAction "pretalx.mail.delete" m.id, .deleteMail m.id,
              .message .success "The mail has been deleted.",
              .redirectTo outboxUrl]) := by
      unfold outboxPurgeSingle
      rw [hfind]
      simp [hsent]
    rw [heq]
    exact ⟨rfl, rfl⟩
  · intro m hm hev hid huniq hsent
    subst hid
    obtain ⟨t, ht⟩ := Option.ne_none_iff_exists'.mp hsent
    have hfind : db.mails.find?
        (fun x => x.event == event.id && x.sent == none && x.id == m.id)
        = none := by
      rw [List.find?_eq_none]
      intro m' hm' hp
      simp only [Bool.and_eq_true, beq_iff_eq] at hp
      obtain ⟨⟨h1, h2⟩, h3⟩ := hp
      rw [huniq m' hm' h3] at h2
      rw [ht] at h2
      cases h2
    have heq : outboxPurgeSingle event db m.id actor method
        = (db, [.message .error notFoundMsg, .redirectTo outboxUrl]) := by
      unfold outboxPurgeSingle
      rw [hfind]
    rw [heq]
    exact ⟨rfl, ⟨_, List.mem_cons_self _ _⟩, rfl⟩

/-- Witness for C8: a concrete unsent mail is logged before it is
deleted, and a concrete sent mail survives with an error. -/
theorem outbox_purge_single_cases_witness :
    let M : QueuedMail :=
      { id := 3, event := 1, «to» := "a@x.com", to_users := [], reply_to := "r",
        cc := "", bcc := "", subject := "s", text := "t", sent := none }
    let S : QueuedMail :=
      { id := 4, event := 1, «to» := "b@y.com", to_users := [], reply_to := "r",
        cc := "", bcc := "", subject := "s", text := "t", sent := some 5 }
    let DB : Db := { users := [], mails := [M, S], templates := [], nextId := 5 }
    (outboxPurgeSingle { id := 1, email := "e@x" } DB 3 7 Method.POST).2
      = [Effect.logAction "pretalx.mail.delete" 3, Effect.deleteMail 3,
          Effect.message .success "The mail has been deleted.",
          Effect.redirectTo outboxUrl]
    ∧ (outboxPurgeSingle { id := 1, email := "e@x" } DB 4 7 Method.POST).1 = DB := by
  intro M S DB
  have h := outbox_purge_single_cases { id := 1, email := "e@x" } DB 3 7 Method.POST
  have h4 := outbox_purge_single_cases { id := 1, email := "e@x" } DB 4 7 Method.POST
  exact ⟨(h.1 M (by decide) (by decide) (by decide) (by decide) (by decide)).1,
    (h4.2 S (by decide) (by decide) (by decide) (by decide) (by decide)).1⟩

/-- C9: the bulk purge removes exactly the event's unsent rows, leaves
every sent row (and other events' rows) in place, and reports the
number of rows removed. -/
theorem outbox_purge_bulk_spec (event : Event) (db : Db) :
    (outboxPurgePost event db).1.mails
      = db.mails.filter (fun m => !(m.event == event.id && m.sent == none))
    ∧ (outboxPurgePost event db).2.1
      = (db.mails.filter (fun m => m.event == event.id && m.sent == none)).length
    ∧ (∀ m ∈ db.mails, m.event = event.id → m.sent = none →
        m ∉ (outboxPurgePost event db).1.mails)
    ∧ (∀ m ∈ db.mails, m.sent ≠ none → m ∈ (outboxPurgePost event db).1.mails)
    ∧ (∀ m ∈ (outboxPurgePost event db).1.mails, m ∈ db.mails) := by
  refine ⟨rfl, rfl, ?_, ?_, ?_⟩
  · intro m hm hev hsent hmem
    simp only [outboxPurgePost] at hmem
    rw [List.mem_filter] at hmem
    simp [hev, hsent] at hmem
  · intro m hm hsent
    simp only [outboxPurgePost]
    rw [List.mem_filter]
    obtain ⟨t, ht⟩ := Option.ne_none_iff_exists'.mp hsent
    simp [hm, ht]
  · intro m hm
    simp only [outboxPurgePost] at hm
    exact (List.mem_filter.mp hm).1

/-- Witness for C9's universally quantified parts: at a concrete store
the sent row of the event and the unsent row of another event survive
the purge while the event's unsent row is gone. -/
theorem outbox_purge_bulk_spec_witness :
    let M : QueuedMail :=
      { id := 3, event := 1, «to» := "a@x.com", to_users := [], reply_to := "r",
        cc := "", bcc := "", subject := "s", text := "t", sent := none }
    let S : QueuedMail :=
      { id := 4, event := 1, «to» := "b@y.com", to_users := [], reply_to := "r",
        cc := "", bcc := "", subject := "s", text := "t", sent := some 5 }
    let O : QueuedMail :=
      { id := 6, event := 2, «to» := "c@z.com", to_users := [], reply_to := "r",
        cc := "", bcc := "", subject := "s", text := "t", sent := none }
    let DB : Db := { users := [], mails := [M, S, O], templates := [], nextId := 7 }
    M ∉ (outboxPurgePost { id := 1, email := "e@x" } DB).1.mails
    ∧ S ∈ (outboxPurgePost { id := 1, email := "e@x" } DB).1.mails
    ∧ (outboxPurgePost { id := 1, email := "e@x" } DB).2.1 = 1 := by
  intro M S O DB
  have h := outbox_purge_bulk_spec { id := 1, email := "e@x" } DB
  exact ⟨h.2.2.1 M (by decide) (by decide) (by decide),
    h.2.2.2.1 S (by decide) (by decide), by decide⟩

/-- C6: a successful mail-detail save whose field values changed writes
exactly one audit-log entry, tagged `create` when the record did not
pre-exist and `update` when it did. -/
theorem mail_detail_audit_log (event : Event) (db : Db)
    (pre : Option QueuedMail) (f : MailDetailForm) (time : Nat)
    (hunsent : ∀ m, pre = some m → m.sent = none)
    (hch : f.has_changed = true) :
    logEffects (mailDetailFormValid event db pre f time).2
      = [Effect.logAction
          ("pretalx.mail." ++ (if pre.isSome then "update" else "create"))
          (boundInstance event pre f db.nextId).id] := by
  have hs : (boundInstance event pre f db.nextId).sent = none := by
    cases pre with
    | none => rfl
    | some m => exact hunsent m rfl
  unfold mailDetailFormValid
  simp only [hs, hch, Option.isSome_none, Bool.false_eq_true, if_false, if_true]
  split
  · simp [logEffects]
  · split
    · simp [logEffects]
    · simp [logEffects]

/-- Witness for C6: creating a fresh mail with changed fields logs
exactly one `pretalx.mail.create` entry. -/
theorem mail_detail_audit_log_witness :
    logEffects (mailDetailFormValid { id := 1, email := "e@x" }
        { users := [], mails := [], templates := [], nextId := 7 } none
        { to_addr := "b@y.com", reply_to := "r2", cc := "", bcc := "",
          subject := "s2", text := "t2", has_changed := true,
          data_form := some "save" } 9).2
      = [Effect.logAction "pretalx.mail.create" 7] :=
  mail_detail_audit_log { id := 1, email := "e@x" }
    { users := [], mails := [], templates := [], nextId := 7 } none
    { to_addr := "b@y.com", reply_to := "r2", cc := "", bcc := "",
      subject := "s2", text := "t2", has_changed := true,
      data_form := some "save" } 9
    (fun m h => Option.noConfusion h) rfl

/-- C10: the compose prefill's `template` parameter is resolved over all
mail templates with no event scoping: whenever the id resolves, the
template's subject, text, reply_to and bcc are copied into the initial
values, regardless of which event owns the template. -/
theorem compose_template_lookup_global (db : Db) (codes : List String)
    (tid : Nat) (t : MailTemplate) (subP emailP : Option String)
    (hfind : db.templates.find? (fun x => x.id == tid) = some t) :
    (composeGetFormKwargs db codes (some tid) subP emailP).subject = some t.subject
    ∧ (composeGetFormKwargs db codes (some tid) subP emailP).text = some t.text
    ∧ (composeGetFormKwargs db codes (some tid) subP emailP).reply_to
        = some t.reply_to
    ∧ (composeGetFormKwargs db codes (some tid) subP emailP).bcc = some t.bcc := by
  unfold composeGetFormKwargs
  cases subP with
  | none => cases emailP <;> simp [hfind]
  | some c =>
    cases emailP <;> by_cases hc : c ∈ codes <;> simp [hfind, hc]

/-- Witness for C10: a template owned by event 99 is still copied into
the compose form of the current event. -/
theorem compose_template_lookup_global_witness :
    let T : MailTemplate :=
      { id := 5, event := 99, subject := "TS", text := "TT", reply_to := "TR",
        bcc := "TB" }
    let DB : Db := { users := [], mails := [], templates := [T], nextId := 6 }
    (composeGetFormKwargs DB ["CODE"] (some 5) none none).subject = some "TS" := by
  intro T DB
  exact (compose_template_lookup_global DB ["CODE"] 5 T none none (by decide)).1

/-- Counterexample to C4: a GET request to the template-delete handler
mutates the store (the template row is gone afterwards), and the
mail-copy handler's redirect goes to the new draft's edit page, not to
a listing URL. -/
theorem template_delete_get_mutates :
    let T : MailTemplate :=
      { id := 5, event := 1, subject := "s", text := "t", reply_to := "r",
        bcc := "b" }
    let M : QueuedMail :=
      { id := 3, event := 1, «to» := "a@x.com", to_users := [], reply_to := "r",
        cc := "", bcc := "", subject := "s", text := "t", sent := none }
    let DB : Db := { users := [], mails := [M], templates := [T], nextId := 6 }
    (templateDeleteDispatch { id := 1, email := "e@x" } DB 5 Method.GET
      = some ({ users := [], mails := [M], templates := [], nextId := 6 },
          [Effect.logAction "pretalx.mail_template.delete" 5, Effect.deleteMail 5,
            Effect.message .success "The template has been deleted.",
            Effect.redirectTo templatesUrl]))
    ∧ (mailCopyDispatch { id := 1, email := "e@x" } DB 3 Method.GET
      = some ({ users := [], mails := [M, { M with id := 6, sent := none }],
                templates := [T], nextId := 7 },
          [Effect.message .success "The mail has been copied, you can edit it now.",
            Effect.redirectTo "orga/mails/6/edit"])) := by
  intro T M DB
  constructor
  · decide
  · decide

theorem outboxSendSingle_unsent_eq (event : Event) (db : Db)
    (pk actor time : Nat) (method : Method) (m : QueuedMail) (hm : m ∈ db.mails)
    (hev : m.event = event.id) (hid : m.id = pk)
    (huniq : ∀ m' ∈ db.mails, m'.id = pk → m' = m) (hsent : m.sent = none) :
    outboxSendSingle event db pk actor time method
      = (markSent db pk time,
          [.sendMail pk (some actor),
            .message .success "The mail has been sent.",
            .redirectTo outboxUrl]) := by
  subst hid
  have hfind : db.mails.find? (fun x => x.event == event.id && x.id == m.id)
      = some m :=
    send_find_some event db m hm hev huniq
  unfold outboxSendSingle
  rw [hfind]
  simp [hsent]

theorem outboxPurgeSingle_unsent_eq (event : Event) (db : Db)
    (pk actor : Nat) (method : Method) (m : QueuedMail) (hm : m ∈ db.mails)
    (hev : m.event = event.id) (hid : m.id = pk)
    (huniq : ∀ m' ∈ db.mails, m'.id = pk → m' = m) (hsent : m.sent = none) :
    outboxPurgeSingle event db pk actor method
      = ({ db with mails := db.mails.filter (fun x => !(x.id == pk)) },
          [.logAction "pretalx.mail.delete" pk, .deleteMail pk,
            .message .success "The mail has been deleted.",
            .redirectTo outboxUrl]) := by
  subst hid
  have hfind : db.mails.find?
      (fun x => x.event == event.id && x.sent == none && x.id == m.id)
      = some m := by
    apply find?_eq_some_of_unique _ _ _ hm
    · simp [hev, hsent]
    · intro y hy hpy
      simp only [Bool.and_eq_true, beq_iff_eq] at hpy
      exact huniq y hy hpy.2
  unfold outboxPurgeSingle
  rw [hfind]
  simp [hsent]

theorem getLast?_append_pair {α : Type} (l : List α) (a b : α) :
    (l ++ [a, b]).getLast? = some b := by
  have h : l ++ [a, b] = (l ++ [a]) ++ [b] := by simp
  rw [h, List.getLast?_concat]

/-- C4 as amended: the listing, confirmation and form views render on
GET and write nothing; the bulk send/purge mutate only in their POST
handlers; the single-object handlers (template delete, mail copy,
single-record send and purge) perform their mutation in `dispatch` for
any request method, GET included; and each mutating action ends in a
redirect carrying a status message — all to their canonical listing
URL except mail copy, which redirects to the new draft's edit page,
and the compose submission, which redirects back to the compose form. -/
theorem mail_views_method_contract (event : Event) (env : QueryEnv) (db : Db)
    (form : WriteMailForm) (f : MailDetailForm) (pk actor time : Nat)
    (method : Method) (codes : List String) (tP : Option Nat)
    (sP eP : Option String) :
    ((outboxListGet event db).1 = db
      ∧ mutatingEffects (outboxListGet event db).2 = [])
    ∧ ((sentListGet event db).1 = db
      ∧ mutatingEffects (sentListGet event db).2 = [])
    ∧ ((outboxSendConfirmGet event db).1 = db
      ∧ mutatingEffects (outboxSendConfirmGet event db).2 = [])
    ∧ ((outboxPurgeConfirmGet event db).1 = db
      ∧ mutatingEffects (outboxPurgeConfirmGet event db).2 = [])
    ∧ ((mailDetailGet event db pk).1 = db
      ∧ mutatingEffects (mailDetailGet event db pk).2 = [])
    ∧ ((templateListGet event db).1 = db
      ∧ mutatingEffects (templateListGet event db).2 = [])
    ∧ ((composeGet event db codes tP sP eP).1 = db
      ∧ mutatingEffects (composeGet event db codes tP sP eP).2 = [])
    ∧ (∀ t ∈ db.templates, t.event = event.id → t.id = pk →
        (∀ t' ∈ db.templates, t'.id = pk → t' = t) →
        templateDeleteDispatch event db pk method
          = some ({ db with templates := db.templates.filter (fun x => !(x.id == pk)) },
              [Effect.logAction "pretalx.mail_template.delete" pk,
                Effect.deleteMail pk,
                Effect.message .success "The template has been deleted.",
                Effect.redirectTo templatesUrl]))
    ∧ (∀ m ∈ db.mails, m.event = event.id → m.id = pk →
        (∀ m' ∈ db.mails, m'.id = pk → m' = m) → m.sent = none →
        outboxSendSingle event db pk actor time method
          = (markSent db pk time,
              [Effect.sendMail pk (some actor),
                Effect.message .success "The mail has been sent.",
                Effect.redirectTo outboxUrl]))
    ∧ (∀ m ∈ db.mails, m.event = event.id → m.id = pk →
        (∀ m' ∈ db.mails, m'.id = pk → m' = m) → m.sent = none →
        outboxPurgeSingle event db pk actor method
          = ({ db with mails := db.mails.filter (fun x => !(x.id == pk)) },
              [Effect.logAction "pretalx.mail.delete" pk, Effect.deleteMail pk,
                Effect.message .success "The mail has been deleted.",
                Effect.redirectTo outboxUrl]))
    ∧ (∀ m ∈ db.mails, m.event = event.id → m.id = pk →
        (∀ m' ∈ db.mails, m'.id = pk → m' = m) →
        mailCopyDispatch event db pk method
          = some ({ db with
              mails := db.mails ++ [{ m with id := db.nextId, sent := none }],
              nextId := db.nextId + 1 },
              [Effect.message .success "The mail has been copied, you can edit it now.",
                Effect.redirectTo (mailEditUrl db.nextId)]))
    ∧ ((outboxPurgePost event db).1.mails
        = db.mails.filter (fun m => !(m.event == event.id && m.sent == none))
      ∧ (outboxPurgePost event db).2.2
        = [Effect.message .success "{count} mails have been purged.",
            Effect.redirectTo outboxUrl])
    ∧ ((outboxSendPost event db actor time).2.2
        = ((db.mails.filter (fun m => m.event == event.id && m.sent == none)).map
            (fun m => Effect.sendMail m.id (some actor)))
          ++ [Effect.message .success "{count} mails have been sent.",
              Effect.redirectTo outboxUrl]
      ∧ ((outboxSendPost event db actor time).2.2).getLast?
        = some (Effect.redirectTo outboxUrl))
    ∧ (∀ pre : Option QueuedMail, (∀ m0, pre = some m0 → m0.sent = none) →
        f.data_form.getD "save" = "save" →
        (mailDetailFormValid event db pre f time).2.getLast?
          = some (Effect.redirectTo outboxUrl)
        ∧ hasSuccessMessage (mailDetailFormValid event db pre f time).2)
    ∧ ((composeFormValidResponse event env db form).1
        = (composeFormValid event env db form).1
      ∧ (composeFormValidResponse event env db form).2.getLast?
        = some (Effect.redirectTo composeUrl)
      ∧ hasSuccessMessage (composeFormValidResponse event env db form).2) := by
  refine ⟨⟨rfl, rfl⟩, ⟨rfl, rfl⟩, ⟨rfl, rfl⟩, ⟨rfl, rfl⟩, ⟨rfl, rfl⟩,
    ⟨rfl, rfl⟩, ⟨rfl, rfl⟩, ?_, ?_, ?_, ?_, ⟨rfl, rfl⟩, ⟨rfl, ?_⟩, ?_,
    ⟨rfl, ?_, ?_⟩⟩
  · intro t ht hev hid huniq
    subst hid
    have hfind : db.templates.find? (fun x => x.event == event.id && x.id == t.id)
        = some t := by
      apply find?_eq_some_of_unique _ _ _ ht
      · simp [hev]
      · intro y hy hpy
        simp only [Bool.and_eq_true, beq_iff_eq] at hpy
        exact huniq y hy hpy.2
    unfold templateDeleteDispatch
    rw [hfind]
  · intro m hm hev hid huniq hsent
    exact outboxSendSingle_unsent_eq event db pk actor time method m hm hev hid
      huniq hsent
  · intro m hm hev hid huniq hsent
    exact outboxPurgeSingle_unsent_eq event db pk actor method m hm hev hid
      huniq hsent
  · intro m hm hev hid huniq
    subst hid
    have hfind : db.mails.find? (fun x => x.event == event.id && x.id == m.id)
        = some m :=
      send_find_some event db m hm hev huniq
    unfold mailCopyDispatch
    rw [hfind]
  · exact getLast?_append_pair _ _ _
  · intro pre hunsent haction
    have hs : (boundInstance event pre f db.nextId).sent = none := by
      cases pre with
      | none => rfl
      | some m0 => exact hunsent m0 rfl
    unfold mailDetailFormValid
    simp only [hs, haction, Option.isSome_none, Bool.false_eq_true, if_false,
      beq_self_eq_true, if_true]
    constructor
    · exact getLast?_append_pair _ _ _
    · exact ⟨_, List.mem_append_right _ (List.mem_cons_self _ _)⟩
  · rfl
  · exact ⟨_, List.mem_cons_self _ _⟩

/-- Witness for the amended C4 at a concrete store and a GET request:
the outbox listing leaves the store unchanged, while template delete
and single-record purge perform their mutation on GET with the
redirect-and-message trace, and a detail-form save ends in a redirect
to the outbox. -/
theorem mail_views_method_contract_witness :
    let T : MailTemplate :=
      { id := 5, event := 1, subject := "s", text := "t", reply_to := "r",
        bcc := "b" }
    let M : QueuedMail :=
      { id := 3, event := 1, «to» := "a@x.com", to_users := [], reply_to := "r",
        cc := "", bcc := "", subject := "s", text := "t", sent := none }
    let DB : Db := { users := [], mails := [M], templates := [T], nextId := 6 }
    let F : MailDetailForm :=
      { to_addr := "b@y.com", reply_to := "r2", cc := "", bcc := "",
        subject := "s2", text := "t2", has_changed := true,
        data_form := some "save" }
    (outboxListGet { id := 1, email := "e@x" } DB).1 = DB
    ∧ (templateDeleteDispatch { id := 1, email := "e@x" } DB 5 Method.GET
        = some ({ users := [], mails := [M], templates := [], nextId := 6 },
            [Effect.logAction "pretalx.mail_template.delete" 5, Effect.deleteMail 5,
              Effect.message .success "The template has been deleted.",
              Effect.redirectTo templatesUrl]))
    ∧ (outboxPurgeSingle { id := 1, email := "e@x" } DB 3 7 Method.GET
        = ({ users := [], mails := [], templates := [T], nextId := 6 },
            [Effect.logAction "pretalx.mail.delete" 3, Effect.deleteMail 3,
              Effect.message .success "The mail has been deleted.",
              Effect.redirectTo outboxUrl]))
    ∧ (mailDetailFormValid { id := 1, email := "e@x" } DB none F 9).2.getLast?
        = some (Effect.redirectTo outboxUrl) := by
  intro T M DB F
  have h := mail_views_method_contract { id := 1, email := "e@x" }
    { usersBySubmissionCodes := fun _ => [], usersByTracks := fun _ => [],
      usersBySubmissionTypes := fun _ => [], usersByRecipientCategory := fun _ => [] }
    DB
    { submissions := [], tracks := [], submission_types := [], recipients := [],
      additional_recipients := none, reply_to := none, cc := "", bcc := "",
      subject := "s", text := "t" }
    F 5 7 9 Method.GET [] none none none
  have h3 := mail_views_method_contract { id := 1, email := "e@x" }
    { usersBySubmissionCodes := fun _ => [], usersByTracks := fun _ => [],
      usersBySubmissionTypes := fun _ => [], usersByRecipientCategory := fun _ => [] }
    DB
    { submissions := [], tracks := [], submission_types := [], recipients := [],
      additional_recipients := none, reply_to := none, cc := "", bcc := "",
      subject := "s", text := "t" }
    F 3 7 9 Method.GET [] none none none
  refine ⟨h.1.1, ?_, ?_, ?_⟩
  · have := h.2.2.2.2.2.2.2.1 T (by decide) (by decide) (by decide) (by decide)
    rw [this]
    rfl
  · have := h3.2.2.2.2.2.2.2.2.2.1 M (by decide) (by decide) (by decide)
      (by decide) (by decide)
    rw [this]
    rfl
  · exact (h.2.2.2.2.2.2.2.2.2.2.2.2.2.1 none (fun m0 hm0 => Option.noConfusion hm0)
      (by decide)).1

end PretalxMails
